import Mathlib

/-!
Verification of the log-manager rotation engine.

Shallow embedding of the Go package `logmanager` (file `src/unnamed/part_000`,
with the construction-time scheduler of `src/logger.go` for the timer claims).

Modelling conventions:
* Machine integers (`int64`, `time.Duration`, sizes) are `Int`.
* Wall-clock instants (`time.Time`) are `Int` values passed explicitly as `now`;
  `time.Since(t)` becomes `now - t`.
* The file system is explicit state: a table of inodes (contents), a table of
  directory entries (path to inode), a table of symbolic links, and a fresh-id
  counter.  A Go `*os.File` is a `Handle` remembering its path, its inode and
  whether it is still open; this separates the directory entry from the inode so
  that out-of-band deletion (unlink while a handle stays open) is expressible.
* `text/template` rendering is an abstract function `render : Nat → Option String`
  from the iteration counter to the rendered name (`none` models a template
  execution error); the rotation timestamp is folded into the function the
  caller supplies, since the template is executed with a single `time.Now()`
  per rotation attempt.
* Fallible OS calls are driven by an explicit `Faults` record saying which
  calls fail; `noFaults` is the fault-free run.
* The collision loop in `Rotate` is fuel-indexed; `none` as the outer result
  means the fuel ran out (the source loop did not terminate within that bound).
* `filepath.Join dir name` is modelled as `dir ++ "/" ++ name` (path cleaning
  is irrelevant to the claims; with a fixed directory the model join is
  injective in the name, as the real one is for clean names).
* Go's runtime panic on dereferencing a nil `os.FileInfo` or nil `*os.File`
  is an explicit `panic` outcome, distinct from returned errors.
-/

/-- `filepath.Join` of the configured directory and a rendered name. -/
def pathJoin (d s : String) : String := d ++ "/" ++ s

/-- Remove the final extension of a path, as
`strings.TrimSuffix(filepath.Base(p), filepath.Ext(p))` rejoined with its
directory: drop the suffix starting at the last dot that occurs after the last
slash.  Auxiliary on the reversed character list. -/
def dropExtRev : List Char → Option (List Char)
  | [] => none
  | c :: rest => if c = '.' then some rest else if c = '/' then none else dropExtRev rest

/-- Strip the final extension of a path (identity when there is none). -/
def dropExt (s : String) : String :=
  match dropExtRev s.data.reverse with
  | some r => ⟨r.reverse⟩
  | none => s

/-- Name of the archive `compress` produces for a rotated-out file:
extension stripped, `.tar.gz` appended. -/
def archiveName (p : String) : String := dropExt p ++ ".tar.gz"

/-- Which OS calls fail in a given run (fault injection for the error-path
claims).  `openFailPaths`/`statFailPaths` list the paths whose
`os.OpenFile`/`os.Stat` fail with an error other than `ErrNotExist`. -/
structure Faults where
  closeFail : Bool
  compressFail : Bool
  removeFail : Bool
  openFailPaths : List String
  statFailPaths : List String
  symlinkFail : Bool
deriving Repr, DecidableEq

/-- The fault-free run: every OS call succeeds. -/
def noFaults : Faults := ⟨false, false, false, [], [], false⟩

def Faults.statFails (f : Faults) (p : String) : Bool := f.statFailPaths.contains p

def Faults.openFails (f : Faults) (p : String) : Bool := f.openFailPaths.contains p

/-- Explicit file-system state: inode table, directory entries, symlinks,
fresh inode counter. -/
structure FS where
  inodes : List (Nat × String)
  entries : List (String × Nat)
  links : List (String × String)
  nextId : Nat
deriving Repr, DecidableEq

/-- Does a regular file exist at path `p` (what `os.Stat` reports)? -/
def FS.pathExists (fs : FS) (p : String) : Bool := (fs.entries.lookup p).isSome

/-- Content of inode `id`. -/
def FS.readInode (fs : FS) (id : Nat) : Option String := fs.inodes.lookup id

/-- Content of the file at path `p`, if any. -/
def FS.readPath (fs : FS) (p : String) : Option String :=
  (fs.entries.lookup p).bind fs.readInode

/-- Update one inode-table row: append `s` when the row is inode `id`. -/
def updInode (id : Nat) (s : String) (e : Nat × String) : Nat × String :=
  match e.1 == id with
  | true => (e.1, e.2 ++ s)
  | false => e

/-- Append `s` to the content of inode `id` (a write through an
`O_APPEND` handle: it targets the inode, not the path). -/
def FS.appendInode (fs : FS) (id : Nat) (s : String) : FS :=
  { fs with inodes := fs.inodes.map (updInode id s) }

/-- `os.Create p` with content `c`: fresh inode, entry at `p` replaced. -/
def FS.createWith (fs : FS) (p : String) (c : String) : FS :=
  { fs with
    entries := (p, fs.nextId) :: fs.entries.filter (fun e => e.1 != p)
    inodes := (fs.nextId, c) :: fs.inodes
    nextId := fs.nextId + 1 }

/-- `os.OpenFile p (O_APPEND|O_CREATE|O_WRONLY) 0644`: open the existing inode
at `p`, or create an empty one.  Returns the state and the inode the returned
handle refers to. -/
def FS.openAppend (fs : FS) (p : String) : FS × Nat :=
  match fs.entries.lookup p with
  | some id => (fs, id)
  | none =>
      ({ fs with
          entries := (p, fs.nextId) :: fs.entries
          inodes := (fs.nextId, "") :: fs.inodes
          nextId := fs.nextId + 1 }, fs.nextId)

/-- `os.Remove p` on a regular file: drop the directory entry (the inode
survives for any handle still referring to it). -/
def FS.removeEntry (fs : FS) (p : String) : FS :=
  { fs with entries := fs.entries.filter (fun e => e.1 != p) }

/-- A Go `*os.File`: remembers its `Name()`, the inode it refers to, and
whether it has been closed. -/
structure Handle where
  name : String
  inode : Nat
  isOpen : Bool
deriving Repr, DecidableEq

/-- `LogManagerOptions` (the template string is carried separately as the
rendering function, since the parsed `templater` is what the code uses). -/
structure LogManagerOptions where
  dir : String
  rotationInterval : Int
  maxFileSize : Int
  gzip : Bool
  latestDotLog : Bool
deriving Repr, DecidableEq

/-- The mutable fields of `LogManager`: the current file handle (`nil` is
`none`) and the last-rotation timestamp. -/
structure LogManager where
  options : LogManagerOptions
  currentFile : Option Handle
  lastRotation : Int
deriving Repr, DecidableEq

/-- Outcome of the filename-collision loop at the top of `Rotate`. -/
inductive LoopOut where
  /-- a rendered name that does not exist on disk was found -/
  | found (fn : String)
  /-- the rendered name equalled the previous iteration's name: keep current file -/
  | noop
  /-- `templater.Execute` failed -/
  | errTemplate
  /-- `os.Stat` failed with an error other than `ErrNotExist` -/
  | errStat
deriving Repr, DecidableEq

/-- The filename-collision loop of `Rotate` (part_000 lines 59-84), fuel-indexed:
render the name for the current iteration, return `noop` if it equals the
previous iteration's name, break out with `found` if no file exists there,
otherwise increment the iteration and retry.  Outer `none` = fuel exhausted. -/
def rotateLoop (flt : Faults) (fs : FS) (dir : String) (render : Nat → Option String) :
    Nat → Nat → String → Option LoopOut
  | 0, _, _ => none
  | fuel + 1, it, oldFn =>
    match render it with
    | none => some .errTemplate
    | some s =>
      let newFn := pathJoin dir s
      if newFn = oldFn then some .noop
      else if flt.statFails newFn then some .errStat
      else if fs.pathExists newFn then rotateLoop flt fs dir render fuel (it + 1) newFn
      else some (.found newFn)

/-- Error results of `Rotate` (`nil` is `none`). -/
inductive RotErr where
  | template
  | stat
  | closeE
  | compressE
  | removeE
  | openE
  | symlinkE
deriving Repr, DecidableEq

/-- Tail of `Rotate` from the `os.OpenFile(newFn, ...)` call on (part_000
lines 108-125): open the new file (on failure Go's multiple assignment leaves
`lm.currentFile = nil`), set `lastRotation := now`, then `setSymlink` (remove
the `latest` link, recreate it when `LatestDotLog`).  The final `Bool` is a
ghost flag: `true` exactly when the manager switched to a newly opened file. -/
def finishOpen (flt : Faults) (now : Int) (lm : LogManager) (fs : FS) (newFn : String) :
    Option (LogManager × FS × Option RotErr × Bool) :=
  if flt.openFails newFn then
    some ({ lm with currentFile := none }, fs, some .openE, false)
  else
    let o := fs.openAppend newFn
    let lm1 : LogManager :=
      { lm with currentFile := some ⟨newFn, o.2, true⟩, lastRotation := now }
    let latest := pathJoin lm.options.dir "latest"
    let fs2 : FS := { o.1 with links := o.1.links.filter (fun e => e.1 != latest) }
    if lm.options.latestDotLog then
      if flt.symlinkFail then some (lm1, fs2, some .symlinkE, true)
      else some (lm1, { fs2 with links := (latest, newFn) :: fs2.links }, none, true)
    else some (lm1, fs2, none, true)

/-- `LogManager.Rotate` (part_000 lines 46-126).  Runs the collision loop; on
`noop` returns `nil` with the state untouched; otherwise closes the current
file (when non-nil), and when `GZIP` is set archives it (`compress` creates
`archiveName` with the old content; it errors when the source path is gone)
and removes the original; then opens the new file via `finishOpen`.
Result: `none` = the loop ran out of fuel; otherwise the new manager state,
file system, returned error, and the ghost switched-file flag. -/
def rotate (flt : Faults) (render : Nat → Option String) (now : Int) (fuel : Nat)
    (lm : LogManager) (fs : FS) : Option (LogManager × FS × Option RotErr × Bool) :=
  match rotateLoop flt fs lm.options.dir render fuel 0 "" with
  | none => none
  | some .noop => some (lm, fs, none, false)
  | some .errTemplate => some (lm, fs, some .template, false)
  | some .errStat => some (lm, fs, some .stat, false)
  | some (.found newFn) =>
    match lm.currentFile with
    | none => finishOpen flt now lm fs newFn
    | some h =>
      if flt.closeFail then some (lm, fs, some .closeE, false)
      else
        let lm1 : LogManager := { lm with currentFile := some { h with isOpen := false } }
        if lm.options.gzip then
          if flt.compressFail || !(fs.pathExists h.name) then
            some (lm1, fs, some .compressE, false)
          else
            let fs1 := fs.createWith (archiveName h.name) ((fs.readPath h.name).getD "")
            if flt.removeFail then some (lm1, fs1, some .removeE, false)
            else finishOpen flt now lm1 (fs1.removeEntry h.name) newFn
        else finishOpen flt now lm1 fs newFn

/-- Error results of `Write` (`nil` is `none`). -/
inductive WErr where
  /-- `os.Stat(lm.currentFile.Name())` failed with a non-`ErrNotExist` error -/
  | statE
  /-- the self-healing `os.OpenFile` failed -/
  | healOpenE
  /-- the rotation performed by `Write` returned an error -/
  | rotateE (e : RotErr)
  /-- `lm.currentFile.Write` on an already-closed file -/
  | closedE
deriving Repr, DecidableEq

/-- Outcome of a `Write` call. -/
inductive WriteOut where
  /-- returned `(n, nil)` -/
  | ok (n : Nat)
  /-- returned `(0, err)` -/
  | err (e : WErr)
  /-- Go runtime panic (nil-pointer dereference) -/
  | panic
deriving Repr, DecidableEq

/-- The final `lm.currentFile.Write(p)` of `Write` (part_000 line 166): a nil
handle panics, a closed handle errors, an open handle appends to its inode. -/
def appendStep (lm : LogManager) (fs : FS) (p : String) (att : Bool) :
    Option (LogManager × FS × WriteOut × Bool) :=
  match lm.currentFile with
  | none => some (lm, fs, .panic, att)
  | some h =>
    if h.isOpen then some (lm, fs.appendInode h.inode p, .ok p.length, att)
    else some (lm, fs, .err .closedE, att)

/-- The rotation check of `Write` (part_000 lines 151-164) and the final write.
`fi` is the `os.FileInfo` from the earlier `os.Stat` call: `none` when that
stat failed (the self-healing branch leaves `fi` nil).  The Go `switch` first
evaluates `MaxFileSize > 0 && fi.Size()+len(p) >= MaxFileSize` - dereferencing
the nil `fi` is a runtime panic - and its `fallthrough` runs the rotation body;
otherwise the second case tests `RotationInterval > 0 && time.Since(lastRotation)
> RotationInterval`.  The ghost `Bool` in the result records whether a rotation
was attempted. -/
def afterStat (flt : Faults) (render : Nat → Option String) (now : Int) (fuel : Nat)
    (lm : LogManager) (fs : FS) (p : String) (fi : Option Int) :
    Option (LogManager × FS × WriteOut × Bool) :=
  let timeCond : Bool :=
    decide (0 < lm.options.rotationInterval) &&
      decide (lm.options.rotationInterval < now - lm.lastRotation)
  let decision : Option Bool :=
    if 0 < lm.options.maxFileSize then
      match fi with
      | none => none
      | some sz => some (decide (lm.options.maxFileSize ≤ sz + (p.length : Int)) || timeCond)
    else some timeCond
  match decision with
  | none => some (lm, fs, .panic, false)
  | some true =>
    match rotate flt render now fuel lm fs with
    | none => none
    | some (lm1, fs1, some e, _) => some (lm1, fs1, .err (.rotateE e), true)
    | some (lm1, fs1, none, _) => appendStep lm1 fs1 p true
  | some false => appendStep lm fs p false

/-- `LogManager.Write` (part_000 lines 129-167).  Stats the current file's
path (a nil `currentFile` panics on `.Name()`); when the path is gone it is
re-created in append mode and the returned handle is discarded, leaving `fi`
nil; then the rotation check and the append run via `afterStat`.  The model is
sequential: the unlock/relock around the inner `Rotate` allows interleavings
that a single-threaded run never sees. -/
def write (flt : Faults) (render : Nat → Option String) (now : Int) (fuel : Nat)
    (lm : LogManager) (fs : FS) (p : String) :
    Option (LogManager × FS × WriteOut × Bool) :=
  match lm.currentFile with
  | none => some (lm, fs, .panic, false)
  | some h =>
    if flt.statFails h.name then some (lm, fs, .err .statE, false)
    else if fs.pathExists h.name then
      afterStat flt render now fuel lm fs p (some ((fs.readPath h.name).getD "").length)
    else
      if flt.openFails h.name then some (lm, fs, .err .healOpenE, false)
      else afterStat flt render now fuel lm (fs.openAppend h.name).1 p none

/-- One `os.FileInfo` seen by the `filepath.Walk` callback of `NewLogManager`. -/
structure DirEntry where
  name : String
  isDir : Bool
  modTime : Int
deriving Repr, DecidableEq

/-- The directory scan of `NewLogManager` (part_000 lines 214-226): walk the
entries in order, skip directories and the name `latest`, keep the entry with
the strictly greatest modification time seen so far (`ModTime().After`). -/
def scanGo : Option DirEntry → List DirEntry → Option DirEntry
  | acc, [] => acc
  | none, e :: rest =>
    if e.isDir || e.name == "latest" then scanGo none rest
    else scanGo (some e) rest
  | some b, e :: rest =>
    if e.isDir || e.name == "latest" then scanGo (some b) rest
    else if b.modTime < e.modTime then scanGo (some e) rest
    else scanGo (some b) rest

/-- The file `NewLogManager` adopts as the active file, if any. -/
def scanNewest (entries : List DirEntry) : Option DirEntry := scanGo none entries

/-- Whether construction performs an initial rotation
(part_000 lines 228-231: exactly when the scan found nothing). -/
def initialRotate (entries : List DirEntry) : Bool := (scanNewest entries).isNone

/-- Is a name an already-produced archive (`*.tar.gz`)?  Suffix test on the
character list (equivalent to a string suffix check, but this form evaluates
inside the kernel). -/
def isArchiveFile (n : String) : Bool := n.data.reverse.take 7 == ".tar.gz".data.reverse

/-- Follows the spec's words, for comparison with `scanNewest` (the code's
scan): the startup scan "ignoring already-archived files and the reserved
latest-pointer name" also skips `.tar.gz` archives. -/
def scanNewestSpecified (entries : List DirEntry) : Option DirEntry :=
  entries.foldl
    (fun acc e =>
      if e.isDir || e.name == "latest" || isArchiveFile e.name then acc
      else
        match acc with
        | none => some e
        | some b => if b.modTime < e.modTime then some e else acc)
    none

/-- `time.Time.Truncate` for a positive interval and non-negative instant:
round down to a multiple of the interval. -/
def truncateTime (t i : Int) : Int := (t / i) * i

/-- The `nextRotation` computed by `NewLogManager` in `src/logger.go`
(line 537): `time.Now().Truncate(interval).Add(interval)`. -/
def nextRotation (constructionTime interval : Int) : Int :=
  truncateTime constructionTime interval + interval

/-- The instants at which the goroutine spawned by `NewLogManager` in
`src/logger.go` (lines 535-545) invokes `Rotate`: for a non-zero interval the
goroutine sleeps until `nextRotation`, calls `Rotate` once, and returns - it
never reschedules, so the list has exactly one element.  (The `part_000`
variant of `NewLogManager` spawns no timer at all.) -/
def schedulerFires (constructionTime interval : Int) : List Int :=
  if interval ≠ 0 then [nextRotation constructionTime interval] else []

/-- Eligibility for adoption at startup, per the code's skip condition:
not a directory and not the reserved name `latest`. -/
def eligible (e : DirEntry) : Prop := e.isDir = false ∧ e.name ≠ "latest"

instance (e : DirEntry) : Decidable (eligible e) := by
  unfold eligible; infer_instance

/-! ## Helper lemmas -/

theorem pathJoin_ne_empty (d s : String) : pathJoin d s ≠ "" := by
  intro h
  have h2 := congrArg String.length h
  have h3 : ("/" : String).length = 1 := rfl
  simp [pathJoin, String.length_append, h3] at h2

theorem noFaults_statFails (p : String) : noFaults.statFails p = false := rfl

theorem noFaults_openFails (p : String) : noFaults.openFails p = false := rfl

theorem lookupN_cons_ne (k a : Nat) (v : String) (l : List (Nat × String)) (h : a ≠ k) :
    ((k, v) :: l).lookup a = l.lookup a := by
  have hb : (a == k) = false := beq_eq_false_iff_ne.mpr h
  simp [List.lookup, hb]

theorem lookupS_cons_ne (k a : String) (v : Nat) (l : List (String × Nat)) (h : a ≠ k) :
    ((k, v) :: l).lookup a = l.lookup a := by
  have hb : (a == k) = false := beq_eq_false_iff_ne.mpr h
  simp [List.lookup, hb]

theorem lookupS_filter_none (l : List (String × Nat)) (a : String) (q : String × Nat → Bool)
    (h : l.lookup a = none) : (l.filter q).lookup a = none := by
  induction l with
  | nil => rfl
  | cons e l ih =>
    obtain ⟨k, v⟩ := e
    by_cases hak : a = k
    · subst hak; simp [List.lookup] at h
    · rw [lookupS_cons_ne k a v l hak] at h
      rw [List.filter_cons]
      by_cases hq : q (k, v) = true
      · simp only [hq, if_true]
        rw [lookupS_cons_ne k a v _ hak]
        exact ih h
      · simp only [hq, if_false]
        exact ih h

theorem lookup_map_app (l : List (Nat × String)) (k : Nat) (s : String) :
    (l.map (updInode k s)).lookup k = (l.lookup k).map (fun c => c ++ s) := by
  induction l with
  | nil => rfl
  | cons e l ih =>
    obtain ⟨a, b⟩ := e
    by_cases hak : a = k
    · subst hak
      simp only [List.map_cons, updInode, beq_self_eq_true, List.lookup, Option.map_some']
    · have hb : (a == k) = false := beq_eq_false_iff_ne.mpr hak
      have hb2 : (k == a) = false := beq_eq_false_iff_ne.mpr (fun hh => hak hh.symm)
      simp only [List.map_cons, updInode, hb, List.lookup, hb2]
      exact ih

theorem lookup_map_app_ne (l : List (Nat × String)) (k j : Nat) (s : String) (hjk : j ≠ k) :
    (l.map (updInode k s)).lookup j = l.lookup j := by
  induction l with
  | nil => rfl
  | cons e l ih =>
    obtain ⟨a, b⟩ := e
    by_cases hja : j = a
    · subst hja
      have hb : (j == k) = false := beq_eq_false_iff_ne.mpr hjk
      simp only [List.map_cons, updInode, hb, List.lookup, beq_self_eq_true]
    · have hb2 : (j == a) = false := beq_eq_false_iff_ne.mpr hja
      by_cases hak : a = k
      · subst hak
        simp only [List.map_cons, updInode, beq_self_eq_true, List.lookup, hb2]
        exact ih
      · have hb : (a == k) = false := beq_eq_false_iff_ne.mpr hak
        simp only [List.map_cons, updInode, hb, List.lookup, hb2]
        exact ih

theorem readInode_appendInode (fs : FS) (id : Nat) (s : String) :
    (fs.appendInode id s).readInode id = (fs.readInode id).map (fun c => c ++ s) := by
  simp only [FS.appendInode, FS.readInode]
  exact lookup_map_app fs.inodes id s

theorem readInode_appendInode_ne (fs : FS) (id j : Nat) (s : String) (h : j ≠ id) :
    (fs.appendInode id s).readInode j = fs.readInode j := by
  simp only [FS.appendInode, FS.readInode]
  exact lookup_map_app_ne fs.inodes id j s h

/-- The collision loop only breaks out with `found fn` when no file exists at
`fn` and its stat did not fail. -/
theorem rotateLoop_found_not_exists (flt : Faults) (fs : FS) (dir : String)
    (render : Nat → Option String) :
    ∀ (fuel it : Nat) (oldFn fn : String),
      rotateLoop flt fs dir render fuel it oldFn = some (.found fn) →
      fs.pathExists fn = false ∧ flt.statFails fn = false := by
  intro fuel
  induction fuel with
  | zero => intro it oldFn fn h; simp [rotateLoop] at h
  | succ n ih =>
    intro it oldFn fn h
    rw [rotateLoop] at h
    cases hr : render it with
    | none => rw [hr] at h; simp at h
    | some s =>
      rw [hr] at h
      simp only at h
      by_cases h1 : pathJoin dir s = oldFn
      · rw [if_pos h1] at h; simp at h
      · rw [if_neg h1] at h
        by_cases h2 : flt.statFails (pathJoin dir s) = true
        · rw [if_pos h2] at h; simp at h
        · rw [if_neg h2] at h
          by_cases h3 : fs.pathExists (pathJoin dir s) = true
          · rw [if_pos h3] at h
            exact ih (it + 1) (pathJoin dir s) fn h
          · rw [if_neg h3] at h
            simp only [Option.some.injEq, LoopOut.found.injEq] at h
            subst h
            exact ⟨Bool.eq_false_iff.mpr h3, Bool.eq_false_iff.mpr h2⟩

/-- `appendStep` returns the rotation-attempt flag it was given. -/
theorem appendStep_att (lm : LogManager) (fs : FS) (p : String) (a : Bool)
    (lm1 : LogManager) (fs1 : FS) (out : WriteOut) (att : Bool)
    (h : appendStep lm fs p a = some (lm1, fs1, out, att)) : att = a := by
  unfold appendStep at h
  split at h
  · simp only [Option.some.injEq, Prod.mk.injEq] at h
    exact h.2.2.2.symm
  · split at h
    · simp only [Option.some.injEq, Prod.mk.injEq] at h
      exact h.2.2.2.symm
    · simp only [Option.some.injEq, Prod.mk.injEq] at h
      exact h.2.2.2.symm

/-- When `finishOpen` reports the switched-file ghost flag, the resulting
manager holds a freshly opened handle on the new name and `lastRotation` is
the rotation's `now`; when the flag is false the result is the open failure. -/
theorem finishOpen_spec (flt : Faults) (now : Int) (lm0 : LogManager) (fs0 : FS)
    (fn : String) (lm1 : LogManager) (fs1 : FS) (r : Option RotErr) (sw : Bool)
    (h : finishOpen flt now lm0 fs0 fn = some (lm1, fs1, r, sw)) :
    (sw = true → lm1.lastRotation = now ∧
      lm1.currentFile = some ⟨fn, (fs0.openAppend fn).2, true⟩) ∧
    (sw = false → r = some .openE ∧ lm1.currentFile = none) := by
  unfold finishOpen at h
  split at h
  · simp only [Option.some.injEq, Prod.mk.injEq] at h
    obtain ⟨h1, _, h3, h4⟩ := h
    subst h4
    refine ⟨fun hc => absurd hc (by decide), fun _ => ⟨h3.symm, by rw [← h1]⟩⟩
  · split at h
    · split at h
      · simp only [Option.some.injEq, Prod.mk.injEq] at h
        obtain ⟨h1, _, _, h4⟩ := h
        subst h4
        refine ⟨fun _ => ⟨by rw [← h1], by rw [← h1]⟩, fun hc => absurd hc (by decide)⟩
      · simp only [Option.some.injEq, Prod.mk.injEq] at h
        obtain ⟨h1, _, _, h4⟩ := h
        subst h4
        refine ⟨fun _ => ⟨by rw [← h1], by rw [← h1]⟩, fun hc => absurd hc (by decide)⟩
    · simp only [Option.some.injEq, Prod.mk.injEq] at h
      obtain ⟨h1, _, _, h4⟩ := h
      subst h4
      refine ⟨fun _ => ⟨by rw [← h1], by rw [← h1]⟩, fun hc => absurd hc (by decide)⟩

/-- Whenever `Rotate` reports the switched-file ghost flag, the new state's
`lastRotation` is the rotation's `now` and the current file is freshly open. -/
theorem rotate_switched (flt : Faults) (render : Nat → Option String) (now : Int)
    (fuel : Nat) (lm lm1 : LogManager) (fs fs1 : FS) (r : Option RotErr)
    (h : rotate flt render now fuel lm fs = some (lm1, fs1, r, true)) :
    lm1.lastRotation = now ∧ ∃ h1 : Handle, lm1.currentFile = some h1 ∧ h1.isOpen = true := by
  have finish : ∀ (lm0 : LogManager) (fs0 : FS) (fn : String),
      finishOpen flt now lm0 fs0 fn = some (lm1, fs1, r, true) →
      lm1.lastRotation = now ∧ ∃ h1 : Handle, lm1.currentFile = some h1 ∧ h1.isOpen = true := by
    intro lm0 fs0 fn hf
    have hs := (finishOpen_spec flt now lm0 fs0 fn lm1 fs1 r true hf).1 rfl
    exact ⟨hs.1, ⟨fn, (fs0.openAppend fn).2, true⟩, hs.2, rfl⟩
  unfold rotate at h
  split at h
  · cases h
  · cases h
  · cases h
  · cases h
  · rename_i newFn _
    split at h
    · exact finish _ _ _ h
    · split at h
      · cases h
      · split at h
        · split at h
          · cases h
          · split at h
            · cases h
            · exact finish _ _ _ h
        · exact finish _ _ _ h

/-- The code's skip condition is the negation of eligibility. -/
theorem eligible_iff (e : DirEntry) :
    (e.isDir || e.name == "latest") = false ↔ eligible e := by
  unfold eligible
  rw [Bool.or_eq_false_iff]
  constructor
  · rintro ⟨h1, h2⟩
    exact ⟨h1, by simpa using h2⟩
  · rintro ⟨h1, h2⟩
    exact ⟨h1, beq_eq_false_iff_ne.mpr h2⟩

/-- Once the scan holds a candidate it never returns `none`. -/
theorem scanGo_some_acc (l : List DirEntry) :
    ∀ b : DirEntry, scanGo (some b) l ≠ none := by
  induction l with
  | nil => intro b h; cases h
  | cons e rest ih =>
    intro b h
    rw [scanGo] at h
    by_cases hskip : (e.isDir || e.name == "latest") = true
    · rw [if_pos hskip] at h; exact ih b h
    · rw [if_neg hskip] at h
      by_cases hlt : b.modTime < e.modTime
      · rw [if_pos hlt] at h; exact ih e h
      · rw [if_neg hlt] at h; exact ih b h

/-- The scan returns `none` exactly when it started empty-handed and every
entry is skipped. -/
theorem scanGo_none_iff (l : List DirEntry) :
    ∀ acc : Option DirEntry,
      (scanGo acc l = none ↔ acc = none ∧ ∀ e ∈ l, ¬ eligible e) := by
  induction l with
  | nil =>
    intro acc
    simp [scanGo]
  | cons e rest ih =>
    intro acc
    cases acc with
    | none =>
      rw [scanGo]
      by_cases hskip : (e.isDir || e.name == "latest") = true
      · rw [if_pos hskip, ih none]
        have hne : ¬ eligible e := by
          intro hel
          rw [← eligible_iff] at hel
          rw [hel] at hskip
          cases hskip
        constructor
        · rintro ⟨h1, h2⟩
          refine ⟨h1, ?_⟩
          intro x hx
          rcases List.mem_cons.mp hx with hx | hx
          · subst hx; exact hne
          · exact h2 x hx
        · rintro ⟨h1, h2⟩
          exact ⟨h1, fun x hx => h2 x (List.mem_cons_of_mem e hx)⟩
      · rw [if_neg hskip]
        have hel : eligible e := (eligible_iff e).mp (Bool.eq_false_iff.mpr hskip)
        constructor
        · intro h; exact absurd h (scanGo_some_acc rest e)
        · rintro ⟨-, h2⟩
          exact absurd hel (h2 e (List.mem_cons_self e rest))
    | some b =>
      rw [scanGo]
      by_cases hskip : (e.isDir || e.name == "latest") = true
      · rw [if_pos hskip]
        constructor
        · intro h; exact absurd h (scanGo_some_acc rest b)
        · rintro ⟨h1, -⟩; cases h1
      · rw [if_neg hskip]
        by_cases hlt : b.modTime < e.modTime
        · rw [if_pos hlt]
          constructor
          · intro h; exact absurd h (scanGo_some_acc rest e)
          · rintro ⟨h1, -⟩; cases h1
        · rw [if_neg hlt]
          constructor
          · intro h; exact absurd h (scanGo_some_acc rest b)
          · rintro ⟨h1, -⟩; cases h1

/-- Whatever the scan returns is an eligible entry (or the starting
accumulator) whose modification time dominates every eligible entry of the
list and the accumulator. -/
theorem scanGo_some (l : List DirEntry) :
    ∀ (acc : Option DirEntry) (e : DirEntry), scanGo acc l = some e →
      (acc = some e ∨ (e ∈ l ∧ eligible e)) ∧
      (∀ e' ∈ l, eligible e' → e'.modTime ≤ e.modTime) ∧
      (∀ b : DirEntry, acc = some b → b.modTime ≤ e.modTime) := by
  induction l with
  | nil =>
    intro acc e h
    rw [scanGo] at h
    refine ⟨Or.inl h, by simp, ?_⟩
    intro b hb
    rw [hb] at h
    injection h with h
    subst h
    exact le_refl _
  | cons f rest ih =>
    intro acc e h
    have hskip_ne : ∀ hskip : (f.isDir || f.name == "latest") = true, ¬ eligible f := by
      intro hskip hel
      rw [← eligible_iff] at hel
      rw [hel] at hskip
      cases hskip
    cases acc with
    | none =>
      rw [scanGo] at h
      by_cases hskip : (f.isDir || f.name == "latest") = true
      · rw [if_pos hskip] at h
        obtain ⟨hm, hmax, hacc⟩ := ih none e h
        refine ⟨?_, ?_, ?_⟩
        · rcases hm with hm | hm
          · cases hm
          · exact Or.inr ⟨List.mem_cons_of_mem f hm.1, hm.2⟩
        · intro x hx hex
          rcases List.mem_cons.mp hx with hx | hx
          · subst hx; exact absurd hex (hskip_ne hskip)
          · exact hmax x hx hex
        · intro b hb; cases hb
      · rw [if_neg hskip] at h
        have hel : eligible f := (eligible_iff f).mp (Bool.eq_false_iff.mpr hskip)
        obtain ⟨hm, hmax, hacc⟩ := ih (some f) e h
        have hfe : f.modTime ≤ e.modTime := hacc f rfl
        refine ⟨?_, ?_, ?_⟩
        · rcases hm with hm | hm
          · injection hm with hm
            subst hm
            exact Or.inr ⟨List.mem_cons_self f rest, hel⟩
          · exact Or.inr ⟨List.mem_cons_of_mem f hm.1, hm.2⟩
        · intro x hx hex
          rcases List.mem_cons.mp hx with hx | hx
          · subst hx; exact hfe
          · exact hmax x hx hex
        · intro b hb; cases hb
    | some b =>
      rw [scanGo] at h
      by_cases hskip : (f.isDir || f.name == "latest") = true
      · rw [if_pos hskip] at h
        obtain ⟨hm, hmax, hacc⟩ := ih (some b) e h
        refine ⟨?_, ?_, hacc⟩
        · rcases hm with hm | hm
          · exact Or.inl hm
          · exact Or.inr ⟨List.mem_cons_of_mem f hm.1, hm.2⟩
        · intro x hx hex
          rcases List.mem_cons.mp hx with hx | hx
          · subst hx; exact absurd hex (hskip_ne hskip)
          · exact hmax x hx hex
      · rw [if_neg hskip] at h
        have hel : eligible f := (eligible_iff f).mp (Bool.eq_false_iff.mpr hskip)
        by_cases hlt : b.modTime < f.modTime
        · rw [if_pos hlt] at h
          obtain ⟨hm, hmax, hacc⟩ := ih (some f) e h
          have hfe : f.modTime ≤ e.modTime := hacc f rfl
          refine ⟨?_, ?_, ?_⟩
          · rcases hm with hm | hm
            · injection hm with hm
              subst hm
              exact Or.inr ⟨List.mem_cons_self f rest, hel⟩
            · exact Or.inr ⟨List.mem_cons_of_mem f hm.1, hm.2⟩
          · intro x hx hex
            rcases List.mem_cons.mp hx with hx | hx
            · subst hx; exact hfe
            · exact hmax x hx hex
          · intro c hc
            injection hc with hc
            subst hc
            exact le_trans (le_of_lt hlt) hfe
        · rw [if_neg hlt] at h
          obtain ⟨hm, hmax, hacc⟩ := ih (some b) e h
          have hbe : b.modTime ≤ e.modTime := hacc b rfl
          refine ⟨?_, ?_, ?_⟩
          · rcases hm with hm | hm
            · exact Or.inl hm
            · exact Or.inr ⟨List.mem_cons_of_mem f hm.1, hm.2⟩
          · intro x hx hex
            rcases List.mem_cons.mp hx with hx | hx
            · subst hx; exact le_trans (le_of_not_lt hlt) hbe
            · exact hmax x hx hex
          · intro c hc
            injection hc with hc
            subst hc
            exact hbe

/-- Divergence of the collision loop: no amount of fuel makes it return. -/
def rotateLoopDiverges (flt : Faults) (fs : FS) (dir : String)
    (render : Nat → Option String) : Prop :=
  ∀ fuel : Nat, rotateLoop flt fs dir render fuel 0 "" = none

/-- A template whose rendered name varies with the iteration counter but only
alternates between two fixed names. -/
def altRender (it : Nat) : Option String := some (if it % 2 = 0 then "a" else "b")

/-- A directory in which both names the alternating template can produce
already exist. -/
def fsAlt : FS := ⟨[(0, "u"), (1, "v")], [("d/a", 0), ("d/b", 1)], [], 2⟩

theorem altLoop_aux :
    ∀ (fuel it : Nat) (oldFn : String),
      oldFn ≠ pathJoin "d" (if it % 2 = 0 then "a" else "b") →
      rotateLoop noFaults fsAlt "d" altRender fuel it oldFn = none := by
  intro fuel
  induction fuel with
  | zero => intro it oldFn h; rfl
  | succ n ih =>
    intro it oldFn hne
    rw [rotateLoop]
    by_cases hp : it % 2 = 0
    · rw [if_pos hp] at hne
      have hs : altRender it = some "a" := by simp [altRender, hp]
      rw [hs]
      simp only
      rw [if_neg (fun hh => hne hh.symm)]
      have h1 : noFaults.statFails (pathJoin "d" "a") = false := rfl
      have h2 : fsAlt.pathExists (pathJoin "d" "a") = true := rfl
      rw [h1]
      simp only [Bool.false_eq_true, if_false]
      rw [h2]
      simp only [if_true]
      apply ih
      have hp1 : (it + 1) % 2 = 1 := by omega
      rw [if_neg (by omega : ¬ (it + 1) % 2 = 0)]
      decide
    · rw [if_neg hp] at hne
      have hs : altRender it = some "b" := by simp [altRender, hp]
      rw [hs]
      simp only
      rw [if_neg (fun hh => hne hh.symm)]
      have h1 : noFaults.statFails (pathJoin "d" "b") = false := rfl
      have h2 : fsAlt.pathExists (pathJoin "d" "b") = true := rfl
      rw [h1]
      simp only [Bool.false_eq_true, if_false]
      rw [h2]
      simp only [if_true]
      apply ih
      rw [if_pos (by omega : (it + 1) % 2 = 0)]
      decide

/-! ## Claim theorems -/

/-- C5 (code bug): the claim says a Write after out-of-band deletion of the
active path returns no error visible to the caller and re-creates the file.
At the failing input - `MaxFileSize = 10 > 0`, active path `d/a.log` deleted -
the code re-creates the path but then dereferences the nil `os.FileInfo` left
by the failed `os.Stat` in the size check `fi.Size()+len(p) >= MaxFileSize`,
a Go runtime panic, so the caller sees a crash rather than a clean write. -/
theorem C5_self_heal_panic_thm :
    write noFaults (fun _ => some "x.log") 50 5
      ⟨⟨"d", 0, 10, false, false⟩, some ⟨"d/a.log", 0, true⟩, 0⟩
      ⟨[(0, "hi")], [], [], 1⟩ "x"
      = some (⟨⟨"d", 0, 10, false, false⟩, some ⟨"d/a.log", 0, true⟩, 0⟩,
          ⟨[(1, ""), (0, "hi")], [("d/a.log", 1)], [], 2⟩, .panic, false) := by
  decide

/-- C6 (counterexample): the consecutive-name guard is not sufficient for all
templates.  `altRender` alternates between the names `a` and `b`, both of
which exist in the directory, so no two consecutive rendered names are equal
and no rendered name is fresh: the collision loop of `Rotate` returns for no
amount of fuel - it loops forever. -/
theorem C6_collision_guard_counterexample :
    rotateLoopDiverges noFaults fsAlt "d" altRender := by
  intro fuel
  apply altLoop_aux fuel 0 ""
  decide

/-- C6 (amended): the consecutive-name guard does terminate the loop for every
template that is insensitive to the iteration counter (constant rendered
name): within two iterations the loop stops with a stat error, the no-op
guard, or a fresh name. -/
theorem C6_collision_guard_amended (flt : Faults) (fs : FS) (dir s : String) :
    ∃ out : LoopOut, rotateLoop flt fs dir (fun _ => some s) 2 0 "" = some out := by
  rw [rotateLoop]
  simp only
  rw [if_neg (pathJoin_ne_empty dir s)]
  by_cases h1 : flt.statFails (pathJoin dir s) = true
  · rw [if_pos h1]
    exact ⟨.errStat, rfl⟩
  · rw [if_neg h1]
    by_cases h2 : fs.pathExists (pathJoin dir s) = true
    · rw [if_pos h2]
      rw [rotateLoop]
      exact ⟨.noop, by simp⟩
    · rw [if_neg h2]
      exact ⟨.found (pathJoin dir s), rfl⟩

/-- C7 (confirmed): when the template renders the same name at iterations 0
and 1 and a file with that name exists (and its stat succeeds), `Rotate`
returns `nil` with the manager and the file system completely unchanged: the
current file stays open and active, nothing is closed, created, archived or
relinked. -/
theorem C7_noop_guard_thm (flt : Faults) (render : Nat → Option String) (now : Int)
    (k : Nat) (lm : LogManager) (fs : FS) (s : String)
    (h0 : render 0 = some s) (h1 : render 1 = some s)
    (hex : fs.pathExists (pathJoin lm.options.dir s) = true)
    (hst : flt.statFails (pathJoin lm.options.dir s) = false) :
    rotate flt render now (k + 2) lm fs = some (lm, fs, none, false) := by
  have hloop : rotateLoop flt fs lm.options.dir render (k + 2) 0 "" = some .noop := by
    rw [rotateLoop, h0]
    simp only
    rw [if_neg (pathJoin_ne_empty lm.options.dir s)]
    rw [hst]
    simp only [Bool.false_eq_true, if_false]
    rw [hex]
    simp only [if_true]
    rw [rotateLoop, h1]
    simp
  unfold rotate
  rw [hloop]

/-- C7 witness: the no-op guard theorem at a concrete manager whose constant
template renders the existing name `a`. -/
theorem C7_noop_guard_witness :
    rotate noFaults (fun _ => some "a") 100 2
      ⟨⟨"d", 0, 0, false, false⟩, some ⟨"d/a", 0, true⟩, 0⟩ fsAlt
      = some (⟨⟨"d", 0, 0, false, false⟩, some ⟨"d/a", 0, true⟩, 0⟩, fsAlt, none, false) :=
  C7_noop_guard_thm noFaults (fun _ => some "a") 100 0
    ⟨⟨"d", 0, 0, false, false⟩, some ⟨"d/a", 0, true⟩, 0⟩ fsAlt "a" rfl rfl (by decide) rfl

/-- C8 (counterexample): the startup scan of `NewLogManager` in `part_000`
does not ignore already-archived files: with `a.log` (modtime 5) and the
archive `b.tar.gz` (modtime 10) in the directory, the code adopts the archive
as the active file, while the scan the spec describes picks `a.log`. -/
theorem C8_startup_scan_counterexample :
    scanNewest [⟨"a.log", false, 5⟩, ⟨"b.tar.gz", false, 10⟩] = some ⟨"b.tar.gz", false, 10⟩ ∧
    isArchiveFile "b.tar.gz" = true ∧
    scanNewestSpecified [⟨"a.log", false, 5⟩, ⟨"b.tar.gz", false, 10⟩]
      = some ⟨"a.log", false, 5⟩ := by
  refine ⟨by decide, by decide, by decide⟩

/-- C8 (amended): the startup scan ignores directories and the reserved name
`latest` - but not `.tar.gz` archives - and adopts a most-recently-modified
entry among the remaining ones; an initial rotation is performed exactly when
no such entry exists. -/
theorem C8_startup_scan_amended (entries : List DirEntry) :
    (scanNewest entries = none ↔ ∀ e ∈ entries, ¬ eligible e) ∧
    (∀ e : DirEntry, scanNewest entries = some e →
      eligible e ∧ e ∈ entries ∧ ∀ e' ∈ entries, eligible e' → e'.modTime ≤ e.modTime) ∧
    (initialRotate entries = true ↔ ∀ e ∈ entries, ¬ eligible e) := by
  have hnone := scanGo_none_iff entries none
  refine ⟨?_, ?_, ?_⟩
  · rw [scanNewest, hnone]
    simp
  · intro e he
    obtain ⟨hm, hmax, -⟩ := scanGo_some entries none e he
    rcases hm with hm | hm
    · cases hm
    · exact ⟨hm.2, hm.1, hmax⟩
  · rw [initialRotate, Option.isNone_iff_eq_none, scanNewest, hnone]
    simp

/-- C8 witness: applying the amended scan theorem to the two-entry directory,
the adopted entry is eligible, belongs to the listing, and dominates the other
eligible entry's modification time. -/
theorem C8_startup_scan_witness :
    eligible ⟨"b.tar.gz", false, 10⟩ ∧
    (⟨"b.tar.gz", false, 10⟩ : DirEntry) ∈
      [(⟨"a.log", false, 5⟩ : DirEntry), ⟨"b.tar.gz", false, 10⟩] ∧
    (⟨"a.log", false, 5⟩ : DirEntry).modTime ≤ (⟨"b.tar.gz", false, 10⟩ : DirEntry).modTime := by
  have h := (C8_startup_scan_amended
      [⟨"a.log", false, 5⟩, ⟨"b.tar.gz", false, 10⟩]).2.1 ⟨"b.tar.gz", false, 10⟩ (by decide)
  exact ⟨h.1, h.2.1, h.2.2 ⟨"a.log", false, 5⟩ (by simp) (by decide)⟩

/-- C9 (counterexample): no recurring timer exists.  With interval 10 and
construction at time 5, the goroutine spawned by `NewLogManager` (logger.go)
fires exactly once, at the first boundary 10; the next interval boundary 20 is
an interval boundary with zero write traffic at which no rotation is ever
attempted, contradicting "fires at every interval boundary and reschedules
itself". -/
theorem C9_scheduler_counterexample :
    schedulerFires 5 10 = [10] ∧ nextRotation 5 10 = 10 ∧ (20 : Int) % 10 = 0 ∧
    ((20 : Int) ∈ schedulerFires 5 10 → False) := by
  refine ⟨by decide, by decide, by decide, by decide⟩

/-- C9 (amended): for any non-zero interval the construction-time goroutine of
the logger.go variant schedules exactly one rotation attempt, at the first
interval boundary after construction, and never reschedules; the `part_000`
variant spawns no timer at all, so rotations there happen only inside `Write`. -/
theorem C9_scheduler_amended (c i : Int) (h : i ≠ 0) :
    schedulerFires c i = [nextRotation c i] := by
  rw [schedulerFires, if_pos h]

/-- C9 witness: the one-shot schedule at interval 10, construction time 5. -/
theorem C9_scheduler_witness : schedulerFires 5 10 = [nextRotation 5 10] :=
  C9_scheduler_amended 5 10 (by decide)

/-- C1 (counterexample): with `MaxFileSize = 10`, an active file `d/app.log`
of size 4 and a 10-byte write, the rotation is triggered (ghost flag `true`)
but the template is insensitive to iteration and `d/app.log` exists, so
`Rotate` no-ops; the very file that was active when `Write` was invoked
receives the write and ends at size 14 ≥ 10, contradicting "the file that was
active when Write was invoked never receives the write that would have
reached size ≥ N". -/
theorem C1_overflow_write_counterexample :
    write noFaults (fun _ => some "app.log") 50 5
      ⟨⟨"d", 0, 10, false, false⟩, some ⟨"d/app.log", 0, true⟩, 0⟩
      ⟨[(0, "test")], [("d/app.log", 0)], [], 1⟩ "1234567890"
      = some (⟨⟨"d", 0, 10, false, false⟩, some ⟨"d/app.log", 0, true⟩, 0⟩,
          ⟨[(0, "test1234567890")], [("d/app.log", 0)], [], 1⟩, .ok 10, true) ∧
    (10 : Int) ≤ ("test1234567890" : String).length := by
  refine ⟨by decide, by decide⟩

/-- C2 (counterexample): `Rotate` closes the old file before opening the new
one.  With `os.OpenFile` failing on the fresh name `d/new.log`, the old file
is already closed and Go's multiple assignment leaves `lm.currentFile = nil`:
after `Rotate` returns (with an error) the manager has no open active file,
contradicting "after Rotate returns - with or without an error - some open
active file exists". -/
theorem C2_open_active_counterexample :
    rotate ⟨false, false, false, ["d/new.log"], [], false⟩ (fun _ => some "new.log") 100 5
      ⟨⟨"d", 0, 0, false, false⟩, some ⟨"d/old.log", 0, true⟩, 0⟩
      ⟨[(0, "x")], [("d/old.log", 0)], [], 1⟩
      = some (⟨⟨"d", 0, 0, false, false⟩, none, 0⟩,
          ⟨[(0, "x")], [("d/old.log", 0)], [], 1⟩, some .openE, false) := by
  decide

/-- C3 (counterexample): with GZIP enabled and `compress` failing, `Rotate`
returns the archive error *without* opening the new file: the manager keeps
the just-closed old handle (`d/old.log`, closed) as its current file and no
file exists at the fresh name, contradicting "the new active file is still
opened and becomes the active file". -/
theorem C3_archive_nonfatal_counterexample :
    rotate ⟨false, true, false, [], [], false⟩ (fun _ => some "new.log") 100 5
      ⟨⟨"d", 0, 0, true, false⟩, some ⟨"d/old.log", 0, true⟩, 0⟩
      ⟨[(0, "x")], [("d/old.log", 0)], [], 1⟩
      = some (⟨⟨"d", 0, 0, true, false⟩, some ⟨"d/old.log", 0, false⟩, 0⟩,
          ⟨[(0, "x")], [("d/old.log", 0)], [], 1⟩, some .compressE, false) := by
  decide

/-- In a fault-free run, opening the new file on a fresh name creates a fresh
empty inode, links the name to it, records `lastRotation := now` and installs
the open handle. -/
theorem finishOpen_noFail (now : Int) (lm0 : LogManager) (fs0 : FS) (fn : String)
    (h : fs0.entries.lookup fn = none) :
    ∃ fs2 : FS,
      finishOpen noFaults now lm0 fs0 fn =
        some ({ lm0 with currentFile := some ⟨fn, fs0.nextId, true⟩, lastRotation := now },
          fs2, none, true) ∧
      fs2.inodes = (fs0.nextId, "") :: fs0.inodes ∧
      fs2.entries = (fn, fs0.nextId) :: fs0.entries ∧
      fs2.nextId = fs0.nextId + 1 := by
  have hoa : fs0.openAppend fn =
      ({ fs0 with
          entries := (fn, fs0.nextId) :: fs0.entries
          inodes := (fs0.nextId, "") :: fs0.inodes
          nextId := fs0.nextId + 1 }, fs0.nextId) := by
    unfold FS.openAppend
    rw [h]
  have ho : noFaults.openFails fn = false := rfl
  simp only [finishOpen, ho, Bool.false_eq_true, if_false, hoa]
  by_cases hl : lm0.options.latestDotLog = true
  · have hs : noFaults.symlinkFail = false := rfl
    simp only [hl, if_true, hs, Bool.false_eq_true, if_false]
    exact ⟨_, rfl, rfl, rfl, rfl⟩
  · simp only [hl, if_false]
    exact ⟨_, rfl, rfl, rfl, rfl⟩

/-- C2 (amended): a rotation that returns no error always leaves an open
active file (the no-op guard keeps the old one, a completed rotation installs
the new one); but the old file is closed *before* the new one is opened, so a
failing rotation - archive failure or open failure - can leave the manager
without any open active file, as the counterexample shows. -/
theorem C2_open_active_amended (flt : Faults) (render : Nat → Option String) (now : Int)
    (fuel : Nat) (lm lm1 : LogManager) (fs fs1 : FS) (sw : Bool) (h0 : Handle)
    (hcf : lm.currentFile = some h0) (hop : h0.isOpen = true)
    (h : rotate flt render now fuel lm fs = some (lm1, fs1, none, sw)) :
    ∃ h1 : Handle, lm1.currentFile = some h1 ∧ h1.isOpen = true := by
  unfold rotate at h
  split at h
  · cases h
  · simp only [Option.some.injEq, Prod.mk.injEq] at h
    obtain ⟨he, -, -, -⟩ := h
    exact ⟨h0, by rw [← he, hcf], hop⟩
  · simp only [Option.some.injEq, Prod.mk.injEq] at h
    obtain ⟨-, -, hc, -⟩ := h
    cases hc
  · simp only [Option.some.injEq, Prod.mk.injEq] at h
    obtain ⟨-, -, hc, -⟩ := h
    cases hc
  · split at h
    · have hs := finishOpen_spec _ _ _ _ _ _ _ _ _ h
      cases sw with
      | false =>
        obtain ⟨hc, -⟩ := hs.2 rfl
        cases hc
      | true => exact ⟨_, (hs.1 rfl).2, rfl⟩
    · split at h
      · simp only [Option.some.injEq, Prod.mk.injEq] at h
        obtain ⟨-, -, hc, -⟩ := h
        cases hc
      · split at h
        · split at h
          · simp only [Option.some.injEq, Prod.mk.injEq] at h
            obtain ⟨-, -, hc, -⟩ := h
            cases hc
          · split at h
            · simp only [Option.some.injEq, Prod.mk.injEq] at h
              obtain ⟨-, -, hc, -⟩ := h
              cases hc
            · have hs := finishOpen_spec _ _ _ _ _ _ _ _ _ h
              cases sw with
              | false =>
                obtain ⟨hc, -⟩ := hs.2 rfl
                cases hc
              | true => exact ⟨_, (hs.1 rfl).2, rfl⟩
        · have hs := finishOpen_spec _ _ _ _ _ _ _ _ _ h
          cases sw with
          | false =>
            obtain ⟨hc, -⟩ := hs.2 rfl
            cases hc
          | true => exact ⟨_, (hs.1 rfl).2, rfl⟩

/-- C2 witness: applying the amended theorem to a fault-free rotation from an
open file `d/old.log` onto the fresh name `d/new.log`. -/
theorem C2_open_active_witness :
    ∃ h1 : Handle,
      (⟨⟨"d", 0, 0, false, false⟩, some ⟨"d/new.log", 1, true⟩, 100⟩ : LogManager).currentFile
        = some h1 ∧ h1.isOpen = true :=
  C2_open_active_amended noFaults (fun _ => some "new.log") 100 5
    ⟨⟨"d", 0, 0, false, false⟩, some ⟨"d/old.log", 0, true⟩, 0⟩
    ⟨⟨"d", 0, 0, false, false⟩, some ⟨"d/new.log", 1, true⟩, 100⟩
    ⟨[(0, "x")], [("d/old.log", 0)], [], 1⟩
    ⟨[(1, ""), (0, "x")], [("d/new.log", 1), ("d/old.log", 0)], [], 2⟩
    true ⟨"d/old.log", 0, true⟩ rfl rfl (by decide)

/-- C3 (amended): an archive failure aborts the rotation rather than being
non-fatal: `Rotate` surfaces the compress error, the new file is never opened,
the just-closed old handle remains the stored current file, and the file
system is untouched - in particular the original file is not deleted (deletion
happens only after a successful archive). -/
theorem C3_archive_nonfatal_amended (flt : Faults) (render : Nat → Option String)
    (now : Int) (fuel : Nat) (lm : LogManager) (fs : FS) (h0 : Handle) (fn : String)
    (hcf : lm.currentFile = some h0)
    (hgz : lm.options.gzip = true)
    (hcl : flt.closeFail = false)
    (hcp : flt.compressFail = true)
    (hloop : rotateLoop flt fs lm.options.dir render fuel 0 "" = some (.found fn)) :
    rotate flt render now fuel lm fs =
      some ({ lm with currentFile := some { h0 with isOpen := false } }, fs,
        some .compressE, false) := by
  unfold rotate
  rw [hloop, hcf]
  simp only
  rw [hcl]
  simp only [Bool.false_eq_true, if_false]
  rw [hgz]
  simp only [if_true]
  rw [hcp]
  simp only [Bool.true_or, if_true]

/-- C3 witness: the amended theorem at a concrete manager with GZIP enabled,
a failing compress, and a template producing the fresh name `w/next.log`. -/
theorem C3_archive_nonfatal_witness :
    rotate ⟨false, true, false, [], [], false⟩ (fun _ => some "next.log") 7 3
      ⟨⟨"w", 0, 0, true, true⟩, some ⟨"w/cur.log", 4, true⟩, 2⟩
      ⟨[(4, "data")], [("w/cur.log", 4)], [], 5⟩
      = some (⟨⟨"w", 0, 0, true, true⟩, some ⟨"w/cur.log", 4, false⟩, 2⟩,
          ⟨[(4, "data")], [("w/cur.log", 4)], [], 5⟩, some .compressE, false) :=
  C3_archive_nonfatal_amended ⟨false, true, false, [], [], false⟩ (fun _ => some "next.log")
    7 3 ⟨⟨"w", 0, 0, true, true⟩, some ⟨"w/cur.log", 4, true⟩, 2⟩
    ⟨[(4, "data")], [("w/cur.log", 4)], [], 5⟩ ⟨"w/cur.log", 4, true⟩ "w/next.log"
    rfl rfl rfl rfl (by decide)

/-- C4 (confirmed): with size-based rotation disabled and the active path
present, a `Write` at time `now` attempts a rotation exactly when
`RotationInterval > 0` and `now - lastRotation > RotationInterval` (strict);
and any rotation that completes (switches files) resets `lastRotation` to the
rotation time, so within the next interval no further rotation triggers. -/
theorem C4_interval_rotation_thm (render : Nat → Option String) (now : Int) (fuel : Nat)
    (lm : LogManager) (fs : FS) (p : String) (h0 : Handle)
    (hcf : lm.currentFile = some h0) (hop : h0.isOpen = true)
    (hex : fs.pathExists h0.name = true)
    (hmax : lm.options.maxFileSize ≤ 0) :
    (∀ lm1 fs1 out att, write noFaults render now fuel lm fs p = some (lm1, fs1, out, att) →
       (att = true ↔ 0 < lm.options.rotationInterval ∧
          lm.options.rotationInterval < now - lm.lastRotation)) ∧
    (∀ lm1 fs1 r, rotate noFaults render now fuel lm fs = some (lm1, fs1, r, true) →
       lm1.lastRotation = now) := by
  constructor
  · intro lm1 fs1 out att hw
    unfold write at hw
    rw [hcf] at hw
    simp only at hw
    have hst : noFaults.statFails h0.name = false := rfl
    rw [hst] at hw
    simp only [Bool.false_eq_true, if_false] at hw
    rw [hex] at hw
    simp only [if_true] at hw
    simp only [afterStat] at hw
    rw [if_neg (not_lt.mpr hmax)] at hw
    by_cases ht : (decide (0 < lm.options.rotationInterval) &&
        decide (lm.options.rotationInterval < now - lm.lastRotation)) = true
    · rw [ht] at hw
      simp only at hw
      have hts : 0 < lm.options.rotationInterval ∧
          lm.options.rotationInterval < now - lm.lastRotation := by
        rw [Bool.and_eq_true, decide_eq_true_eq, decide_eq_true_eq] at ht
        exact ht
      rcases hrot : rotate noFaults render now fuel lm fs with _ | ⟨lm2, fs2, r2, b2⟩
      · rw [hrot] at hw
        cases hw
      · rw [hrot] at hw
        rcases r2 with _ | e2
        · simp only at hw
          have hatt := appendStep_att _ _ _ _ _ _ _ _ hw
          subst hatt
          exact ⟨fun _ => hts, fun _ => rfl⟩
        · simp only [Option.some.injEq, Prod.mk.injEq] at hw
          obtain ⟨-, -, -, hatt⟩ := hw
          rw [← hatt]
          exact ⟨fun _ => hts, fun _ => rfl⟩
    · rw [Bool.not_eq_true] at ht
      rw [ht] at hw
      simp only at hw
      have hatt := appendStep_att _ _ _ _ _ _ _ _ hw
      subst hatt
      constructor
      · intro hc
        cases hc
      · intro hcond
        exfalso
        have : (decide (0 < lm.options.rotationInterval) &&
            decide (lm.options.rotationInterval < now - lm.lastRotation)) = true := by
          rw [Bool.and_eq_true, decide_eq_true_eq, decide_eq_true_eq]
          exact hcond
        rw [ht] at this
        cases this
  · intro lm1 fs1 r hr
    exact (rotate_switched _ _ _ _ _ _ _ _ _ hr).1

/-- C4 witness: a concrete manager with interval 10, last rotation at 0 and a
write at time 15 (15 - 0 > 10): the theorem applies and its rotation-reset
component evaluates on the concrete completed rotation. -/
theorem C4_interval_rotation_witness :
    ((⟨⟨"d", 10, 0, false, false⟩, some ⟨"d/g0.log", 1, true⟩, 15⟩ : LogManager).lastRotation
      = 15) := by
  have h := C4_interval_rotation_thm (fun it => some ("g" ++ toString it ++ ".log")) 15 5
    ⟨⟨"d", 10, 0, false, false⟩, some ⟨"d/a.log", 0, true⟩, 0⟩
    ⟨[(0, "hi")], [("d/a.log", 0)], [], 1⟩ "q" ⟨"d/a.log", 0, true⟩ rfl rfl (by decide)
    (by decide)
  exact h.2 ⟨⟨"d", 10, 0, false, false⟩, some ⟨"d/g0.log", 1, true⟩, 15⟩
    ⟨[(1, ""), (0, "hi")], [("d/g0.log", 1), ("d/a.log", 0)], [], 2⟩ none (by decide)

/-- C10 (confirmed, implicit claim): after out-of-band deletion of the active
path, a `Write` (with no rotation triggering and size-based rotation disabled,
so the nil-FileInfo panic of C5 is not hit) re-creates the path but discards
the re-opened handle: the appended bytes land in the old, now-unlinked inode
still referenced by the stored handle, while the freshly re-created file at
the active path stays empty. -/
theorem C10_discarded_handle_thm (render : Nat → Option String) (now : Int) (fuel : Nat)
    (lm : LogManager) (fs : FS) (p c : String) (h0 : Handle)
    (hcf : lm.currentFile = some h0) (hop : h0.isOpen = true)
    (hgone : fs.entries.lookup h0.name = none)
    (hinode : fs.readInode h0.inode = some c)
    (hwf : h0.inode < fs.nextId)
    (hmax : lm.options.maxFileSize ≤ 0)
    (hint : lm.options.rotationInterval ≤ 0) :
    ∃ fs1 : FS,
      write noFaults render now fuel lm fs p = some (lm, fs1, .ok p.length, false) ∧
      fs1.readInode h0.inode = some (c ++ p) ∧
      fs1.entries.lookup h0.name = some fs.nextId ∧
      fs1.readInode fs.nextId = some "" := by
  have hne : fs.nextId ≠ h0.inode := fun hh => absurd (hh ▸ hwf) (lt_irrefl _)
  have hoa : fs.openAppend h0.name =
      ({ fs with
          entries := (h0.name, fs.nextId) :: fs.entries
          inodes := (fs.nextId, "") :: fs.inodes
          nextId := fs.nextId + 1 }, fs.nextId) := by
    unfold FS.openAppend
    rw [hgone]
  have hpe : fs.pathExists h0.name = false := by
    rw [FS.pathExists, hgone]
    rfl
  have hst : noFaults.statFails h0.name = false := rfl
  have hof : noFaults.openFails h0.name = false := rfl
  unfold write
  rw [hcf]
  simp only
  rw [hst]
  simp only [Bool.false_eq_true, if_false]
  rw [hpe]
  simp only [Bool.false_eq_true, if_false]
  rw [hof]
  simp only [Bool.false_eq_true, if_false]
  rw [hoa]
  simp only [afterStat]
  rw [if_neg (not_lt.mpr hmax)]
  have htc : decide (0 < lm.options.rotationInterval) = false := by
    rw [decide_eq_false_iff_not]
    exact not_lt.mpr hint
  rw [htc]
  simp only [Bool.false_and]
  simp only [appendStep]
  rw [hcf]
  simp only
  rw [hop]
  simp only [if_true]
  refine ⟨_, rfl, ?_, ?_, ?_⟩
  · have h1 := readInode_appendInode
      ({ fs with
          entries := (h0.name, fs.nextId) :: fs.entries
          inodes := (fs.nextId, "") :: fs.inodes
          nextId := fs.nextId + 1 } : FS) h0.inode p
    rw [h1]
    show (List.lookup h0.inode ((fs.nextId, "") :: fs.inodes)).map (fun c0 => c0 ++ p)
      = some (c ++ p)
    rw [lookupN_cons_ne _ _ _ _ (fun hh => hne hh.symm)]
    rw [show List.lookup h0.inode fs.inodes = some c from hinode]
    rfl
  · show List.lookup h0.name ((h0.name, fs.nextId) :: fs.entries) = some fs.nextId
    simp [List.lookup]
  · have h1 := readInode_appendInode_ne
      ({ fs with
          entries := (h0.name, fs.nextId) :: fs.entries
          inodes := (fs.nextId, "") :: fs.inodes
          nextId := fs.nextId + 1 } : FS) h0.inode fs.nextId p hne
    rw [h1]
    show List.lookup fs.nextId ((fs.nextId, "") :: fs.inodes) = some ""
    simp [List.lookup]

/-- C10 witness: concrete run - path `d/a.log` deleted, old inode holds "hi",
write "abc": the old inode ends with "hiabc", the re-created `d/a.log` is a
fresh empty inode. -/
theorem C10_discarded_handle_witness :
    ∃ fs1 : FS,
      write noFaults (fun _ => some "x.log") 50 5
        ⟨⟨"d", 0, 0, false, false⟩, some ⟨"d/a.log", 0, true⟩, 0⟩
        ⟨[(0, "hi")], [], [], 1⟩ "abc"
        = some (⟨⟨"d", 0, 0, false, false⟩, some ⟨"d/a.log", 0, true⟩, 0⟩, fs1,
            .ok "abc".length, false) ∧
      fs1.readInode 0 = some ("hi" ++ "abc") ∧
      fs1.entries.lookup "d/a.log" = some 1 ∧
      fs1.readInode 1 = some "" :=
  C10_discarded_handle_thm (fun _ => some "x.log") 50 5
    ⟨⟨"d", 0, 0, false, false⟩, some ⟨"d/a.log", 0, true⟩, 0⟩
    ⟨[(0, "hi")], [], [], 1⟩ "abc" "hi" ⟨"d/a.log", 0, true⟩
    rfl rfl rfl rfl (by decide) (by decide) (by decide)

/-- C1 (amended): with `MaxFileSize = N > 0` (and time-based rotation
disabled), a `Write` attempts a rotation exactly when the active file's
on-disk size plus the pending write's length is ≥ N; below the threshold the
bytes are appended to the unchanged active file; at or above it, *provided the
collision loop finds a fresh name* (otherwise the no-op guard fires and the
counterexample applies), the rotation completes strictly before the append:
the old inode never receives the write and the new active file holds exactly
the pending bytes. -/
theorem C1_overflow_write_amended (render : Nat → Option String) (now : Int) (fuel : Nat)
    (lm : LogManager) (fs : FS) (p c : String) (h0 : Handle) (N : Int)
    (hcf : lm.currentFile = some h0) (hop : h0.isOpen = true)
    (hentry : fs.entries.lookup h0.name = some h0.inode)
    (hinode : fs.readInode h0.inode = some c)
    (hwf : h0.inode < fs.nextId)
    (hmax : lm.options.maxFileSize = N) (hN : 0 < N)
    (hint : lm.options.rotationInterval = 0) :
    (∀ lm1 fs1 out att, write noFaults render now fuel lm fs p = some (lm1, fs1, out, att) →
        (att = true ↔ N ≤ (c.length : Int) + (p.length : Int))) ∧
    ((c.length : Int) + (p.length : Int) < N →
        write noFaults render now fuel lm fs p =
          some (lm, fs.appendInode h0.inode p, .ok p.length, false)) ∧
    (∀ fn : String, N ≤ (c.length : Int) + (p.length : Int) →
        rotateLoop noFaults fs lm.options.dir render fuel 0 "" = some (.found fn) →
        (lm.options.gzip = true → fn ≠ archiveName h0.name) →
        ∃ (lm1 : LogManager) (fs1 : FS) (id : Nat),
          write noFaults render now fuel lm fs p = some (lm1, fs1, .ok p.length, true) ∧
          lm1.currentFile = some ⟨fn, id, true⟩ ∧ lm1.lastRotation = now ∧
          fs1.readInode h0.inode = some c ∧ fs1.readInode id = some p) := by
  have hst : noFaults.statFails h0.name = false := rfl
  have hpe : fs.pathExists h0.name = true := by
    rw [FS.pathExists, hentry]
    rfl
  have hsz : (fs.readPath h0.name).getD "" = c := by
    rw [FS.readPath, hentry]
    simp [hinode]
  have hmain : write noFaults render now fuel lm fs p =
      (if N ≤ (c.length : Int) + (p.length : Int) then
        (match rotate noFaults render now fuel lm fs with
         | none => none
         | some (lm2, fs2, some e, _) => some (lm2, fs2, .err (.rotateE e), true)
         | some (lm2, fs2, none, _) => appendStep lm2 fs2 p true)
       else appendStep lm fs p false) := by
    unfold write
    rw [hcf]
    simp only
    rw [hst]
    simp only [Bool.false_eq_true, if_false]
    rw [hpe]
    simp only [if_true]
    rw [hsz]
    simp only [afterStat]
    rw [hmax, if_pos hN]
    rw [hint]
    have hd0 : decide ((0 : Int) < 0) = false := by decide
    rw [hd0]
    simp only [Bool.false_and, Bool.or_false]
    by_cases hs : N ≤ (c.length : Int) + (p.length : Int)
    · rw [if_pos hs, decide_eq_true hs]
    · rw [if_neg hs, decide_eq_false hs]
  refine ⟨?_, ?_, ?_⟩
  · intro lm1 fs1 out att hw
    rw [hmain] at hw
    by_cases hs : N ≤ (c.length : Int) + (p.length : Int)
    · rw [if_pos hs] at hw
      rcases hrot : rotate noFaults render now fuel lm fs with _ | ⟨lm2, fs2, r2, b2⟩
      · rw [hrot] at hw
        cases hw
      · rw [hrot] at hw
        rcases r2 with _ | e2
        · simp only at hw
          have hatt := appendStep_att _ _ _ _ _ _ _ _ hw
          subst hatt
          exact ⟨fun _ => hs, fun _ => rfl⟩
        · simp only [Option.some.injEq, Prod.mk.injEq] at hw
          obtain ⟨-, -, -, hatt⟩ := hw
          rw [← hatt]
          exact ⟨fun _ => hs, fun _ => rfl⟩
    · rw [if_neg hs] at hw
      have hatt := appendStep_att _ _ _ _ _ _ _ _ hw
      subst hatt
      exact ⟨fun hc => absurd hc (by decide), fun hc => absurd hc hs⟩
  · intro hlt
    rw [hmain, if_neg (not_le.mpr hlt)]
    unfold appendStep
    rw [hcf]
    simp only
    rw [hop]
    simp only [if_true]
  · intro fn hs hloop hgzarch
    have hfound := rotateLoop_found_not_exists noFaults fs lm.options.dir render fuel 0 "" fn hloop
    have hfnnone : fs.entries.lookup fn = none := by
      rcases hfs : fs.entries.lookup fn with _ | v
      · rfl
      · have h1 := hfound.1
        rw [FS.pathExists, hfs] at h1
        cases h1
    have hclose : noFaults.closeFail = false := rfl
    have hcmp : noFaults.compressFail = false := rfl
    have hrmv : noFaults.removeFail = false := rfl
    have hrotEq : ∃ (id : Nat) (fs2 : FS),
        rotate noFaults render now fuel lm fs =
          some ({ lm with currentFile := some ⟨fn, id, true⟩, lastRotation := now },
            fs2, none, true) ∧
        fs2.readInode h0.inode = some c ∧ fs2.readInode id = some "" ∧ h0.inode ≠ id := by
      by_cases hgz : lm.options.gzip = true
      · have harch : fn ≠ archiveName h0.name := hgzarch hgz
        have hl1 : List.lookup fn ((archiveName h0.name, fs.nextId) ::
            fs.entries.filter (fun e => e.1 != archiveName h0.name)) = none := by
          rw [lookupS_cons_ne _ _ _ _ harch]
          exact lookupS_filter_none _ _ _ hfnnone
        have hl2 : ((fs.createWith (archiveName h0.name) c).removeEntry h0.name).entries.lookup
            fn = none := by
          exact lookupS_filter_none _ _ _ hl1
        obtain ⟨fs2, hfin, hinodes2, hentries2, hnext2⟩ :=
          finishOpen_noFail now { lm with currentFile := some { h0 with isOpen := false } }
            ((fs.createWith (archiveName h0.name) c).removeEntry h0.name) fn hl2
        have hre : rotate noFaults render now fuel lm fs =
            finishOpen noFaults now { lm with currentFile := some { h0 with isOpen := false } }
              ((fs.createWith (archiveName h0.name) c).removeEntry h0.name) fn := by
          unfold rotate
          rw [hloop, hcf]
          simp only
          rw [hclose]
          simp only [Bool.false_eq_true, if_false]
          rw [hgz]
          simp only [if_true]
          rw [hcmp, hpe]
          simp only [Bool.not_true, Bool.or_false, Bool.false_eq_true, if_false]
          rw [hrmv]
          simp only [Bool.false_eq_true, if_false]
          rw [hsz]
        have hid : ((fs.createWith (archiveName h0.name) c).removeEntry h0.name).nextId
            = fs.nextId + 1 := rfl
        refine ⟨fs.nextId + 1, fs2, ?_, ?_, ?_, by omega⟩
        · rw [hre, hfin, hid]
        · rw [FS.readInode, hinodes2, hid]
          rw [lookupN_cons_ne _ _ _ _ (by omega : h0.inode ≠ fs.nextId + 1)]
          show List.lookup h0.inode ((fs.nextId, c) :: fs.inodes) = some c
          rw [lookupN_cons_ne _ _ _ _ (by omega : h0.inode ≠ fs.nextId)]
          exact hinode
        · rw [FS.readInode, hinodes2, hid]
          simp [List.lookup]
      · rw [Bool.not_eq_true] at hgz
        obtain ⟨fs2, hfin, hinodes2, hentries2, hnext2⟩ :=
          finishOpen_noFail now { lm with currentFile := some { h0 with isOpen := false } }
            fs fn hfnnone
        have hre : rotate noFaults render now fuel lm fs =
            finishOpen noFaults now { lm with currentFile := some { h0 with isOpen := false } }
              fs fn := by
          unfold rotate
          rw [hloop, hcf]
          simp only
          rw [hclose]
          simp only [Bool.false_eq_true, if_false]
          rw [hgz]
          simp only [Bool.false_eq_true, if_false]
        refine ⟨fs.nextId, fs2, ?_, ?_, ?_, by omega⟩
        · rw [hre, hfin]
        · rw [FS.readInode, hinodes2]
          rw [lookupN_cons_ne _ _ _ _ (by omega : h0.inode ≠ fs.nextId)]
          exact hinode
        · rw [FS.readInode, hinodes2]
          simp [List.lookup]
    obtain ⟨id, fs2, hre, hC, hE, hne⟩ := hrotEq
    refine ⟨{ lm with currentFile := some ⟨fn, id, true⟩, lastRotation := now },
      fs2.appendInode id p, id, ?_, rfl, rfl, ?_, ?_⟩
    · rw [hmain, if_pos hs, hre]
      rfl
    · rw [readInode_appendInode_ne fs2 id h0.inode p hne]
      exact hC
    · rw [readInode_appendInode]
      rw [hE]
      simp

/-- C1 witness: the amended theorem's rotation branch at the spec's end-to-end
scenario (fresh-name template): the 10-byte write triggers a rotation, the old
inode keeps exactly "test", the new active file receives "1234567890". -/
theorem C1_overflow_write_witness :
    ∃ (lm1 : LogManager) (fs1 : FS) (id : Nat),
      write noFaults (fun it => some ("f" ++ toString it ++ ".log")) 50 5
        ⟨⟨"d", 0, 10, false, false⟩, some ⟨"d/app.log", 0, true⟩, 0⟩
        ⟨[(0, "test")], [("d/app.log", 0)], [], 1⟩ "1234567890"
        = some (lm1, fs1, .ok "1234567890".length, true) ∧
      lm1.currentFile = some ⟨"d/f0.log", id, true⟩ ∧ lm1.lastRotation = 50 ∧
      fs1.readInode 0 = some "test" ∧ fs1.readInode id = some "1234567890" :=
  (C1_overflow_write_amended (fun it => some ("f" ++ toString it ++ ".log")) 50 5
    ⟨⟨"d", 0, 10, false, false⟩, some ⟨"d/app.log", 0, true⟩, 0⟩
    ⟨[(0, "test")], [("d/app.log", 0)], [], 1⟩ "1234567890" "test" ⟨"d/app.log", 0, true⟩ 10
    rfl rfl (by decide) (by decide) (by decide) rfl (by decide) rfl).2.2 "d/f0.log"
    (by decide) (by decide) (fun hgz => absurd hgz (by decide))
